import Mathlib

/-!
Shallow embedding of the backup-orchestration pipeline of the `dumpster`
package (`internal/dumpster/dumpster.go`): `export`, `CreateDump`,
`ListDumps`, `PurgeDumps` and `Dump` on the `Dumpster` receiver.

External collaborators (the `exec` command runner, the `file.ArchiveDir`
archiver, the `gpg` encryptor, the `storage.StorageIface` backend and the
`datetime.SortDateTimes` sorter, all from other repositories) are modelled
as oracles collected in an `Env` record.  Stateful effects are made
observable through explicit traces: `CreateDump` additionally returns the
list of collaborator calls it issued after the export stage, and the purge
delete loop returns the ordered list of keys passed to `Delete`.  Go's
`keys[R:]` slice, which panics when the index is out of range, is modelled
with `Option` (`none` = runtime panic).  Machine integers that can go
negative (the configured retention count) are `Int`; counters that start
at 0 and are only incremented are `Nat`.
-/

/-- Errors distinguished by their construction site in the Go source.
Each constructor corresponds to one distinct `return nil, err` site of the
`dumpster` package; the carried strings are the underlying collaborator
error messages. -/
inductive DumpErr where
  /-- `runPreChecks` failure (filesystem or missing binary). -/
  | preCheck (msg : String) : DumpErr
  /-- `export`: "error getting list of databases: %w". -/
  | enumFailed (msg : String) : DumpErr
  /-- `CreateDump`: `errors.New("no databases were exported")`. -/
  | zeroExport : DumpErr
  /-- `CreateDump`: `file.ArchiveDir` failure. -/
  | archiveFailed (msg : String) : DumpErr
  /-- `CreateDump`: `FetchGPGPubKeyFromKeyServer` failure. -/
  | gpgKeyFailed (msg : String) : DumpErr
  /-- `CreateDump`: `EncryptFile` failure. -/
  | encryptFailed (msg : String) : DumpErr
  /-- `CreateDump`: `store.Upload` failure. -/
  | uploadFailed (msg : String) : DumpErr
  /-- `ListDumps`: `store.List` failure, propagated unchanged. -/
  | listFailed (msg : String) : DumpErr
  /-- `PurgeDumps`: "error deleting backup %s: %w", naming the key. -/
  | deleteFailed (key : String) (msg : String) : DumpErr
deriving DecidableEq, Repr

/-- Observable collaborator calls issued by `CreateDump` after the export
stage, in program order. -/
inductive Event where
  | archiveCall : Event
  | fetchKeyCall : Event
  | encryptCall (path : String) : Event
  | uploadCall (path : String) : Event
deriving DecidableEq, Repr

/-- The paths passed to `store.Upload` in a trace. -/
def uploadPaths (evs : List Event) : List String :=
  evs.filterMap fun e =>
    match e with
    | .uploadCall p => some p
    | _ => none

deriving instance DecidableEq for Except

/-- Go `exportResponse` struct. -/
structure exportResponse where
  totalDatabases : Nat
  exportedDatabases : Nat
  exportLocation : String
deriving DecidableEq, Repr

/-- Go `DumpResponse` struct. -/
structure DumpResponse where
  TotalDatabases : Nat
  ExportedDatabases : Nat
  DumpLocation : String
  ArchiveLocation : String
  StorageKey : String
deriving DecidableEq, Repr

/-- One orchestration run's configuration together with the behaviour of
every external collaborator the `Dumpster` methods call.  Result-valued
fields are the (deterministic, per-run) outcomes of the corresponding
collaborator calls; `pgDump` is indexed by the loop position of the call so
that time-dependent failure (flakiness, a cancellation signal becoming set
mid-loop) is expressible. -/
structure Env where
  /-- Outcome of `runPreChecks` (directory reset + `LookPath` checks). -/
  preChecks : Except String Unit
  /-- Outcome of the `psql -At -c <query>` enumeration: captured stdout. -/
  psqlOutput : Except String String
  /-- Outcome of the `pg_dump` invocation at loop index `i` for database
  `db` (`.error` = non-zero exit / invocation failure, including one
  caused by a cancelled context). -/
  pgDump : Nat → String → Except String Unit
  /-- Outcome of `file.ArchiveDir`: the archive path. -/
  archive : Except String String
  /-- `cfg.Backup.Encrypt`. -/
  encrypt : Bool
  /-- Outcome of `FetchGPGPubKeyFromKeyServer`. -/
  fetchKey : Except String Unit
  /-- Outcome of `gpg.EncryptFile` on a given path: the encrypted path. -/
  encryptFile : String → Except String String
  /-- Outcome of `store.Upload` on a given path: the storage key. -/
  upload : String → Except String String
  /-- The run's backup location (`d.backupLocation`). -/
  backupLocation : String
  /-- Outcome of `store.List`. -/
  list : Except String (List String)
  /-- `store.TrimPrefix`: strips the configured instance prefix. -/
  trimPfx : List String → List String
  /-- `datetime.SortDateTimes`: orders keys by embedded timestamp,
  most-recent first. -/
  sortDateTimes : List String → List String
  /-- Outcome of `store.Delete` on a given key. -/
  delete : String → Except String Unit
  /-- `cfg.Backup.RetentionCount` (a Go `int`, possibly negative). -/
  retentionCount : Int

/-- Split a character list at every newline, Go `strings.Split(s, "\n")`:
the empty input yields one empty field. -/
def splitNl : List Char → List (List Char)
  | [] => [[]]
  | c :: rest =>
    let r := splitNl rest
    if c = '\n' then [] :: r
    else
      match r with
      | [] => [[c]]
      | g :: gs => (c :: g) :: gs

/-- Go `strings.TrimSpace`: drop leading and trailing whitespace. -/
def trimWs (cs : List Char) : List Char :=
  ((cs.dropWhile Char.isWhitespace).reverse.dropWhile Char.isWhitespace).reverse

/-- The enumeration loop of `Dumpster.export`: per line, trim surrounding
whitespace, skip empty lines, append the name and bump `totalDatabases`. -/
def enumLoop : List (List Char) → List String × Nat
  | [] => ([], 0)
  | line :: rest =>
    let l := trimWs line
    if l = [] then enumLoop rest
    else
      let (dbs, n) := enumLoop rest
      (String.mk l :: dbs, n + 1)

/-- The per-database dump loop of `Dumpster.export`, started at loop index
`i`: a failing `pg_dump` is skipped (`continue`), a succeeding one bumps
`exportedDatabases`.  Returns the final success count. -/
def exportLoop (pgDump : Nat → String → Except String Unit) :
    Nat → List String → Nat
  | _, [] => 0
  | i, db :: rest =>
    match pgDump i db with
    | .ok _ => exportLoop pgDump (i + 1) rest + 1
    | .error _ => exportLoop pgDump (i + 1) rest

/-- `Dumpster.export`: enumerate databases via `psql`, then dump each in
turn, counting successes; only the enumeration can fail. -/
def exportStage (env : Env) : Except DumpErr exportResponse :=
  match env.psqlOutput with
  | .error e => .error (.enumFailed e)
  | .ok output =>
    let (databases, totalDatabases) := enumLoop (splitNl output.toList)
    .ok { totalDatabases := totalDatabases
          exportedDatabases := exportLoop env.pgDump 0 databases
          exportLocation := env.backupLocation }

/-- The tail of `Dumpster.CreateDump` after a successful export stage:
zero-export check, archive, optional key-fetch + encryption, upload.
Also returns the trace of collaborator calls issued. -/
def afterExport (env : Env) (resp : exportResponse) :
    List Event × Except DumpErr DumpResponse :=
  if resp.exportedDatabases ≤ 0 then ([], .error .zeroExport)
  else
    match env.archive with
    | .error e => ([.archiveCall], .error (.archiveFailed e))
    | .ok archivePath =>
      if env.encrypt then
        match env.fetchKey with
        | .error e => ([.archiveCall, .fetchKeyCall], .error (.gpgKeyFailed e))
        | .ok _ =>
          match env.encryptFile archivePath with
          | .error e =>
            ([.archiveCall, .fetchKeyCall, .encryptCall archivePath],
             .error (.encryptFailed e))
          | .ok encryptedFilePath =>
            match env.upload encryptedFilePath with
            | .error e =>
              ([.archiveCall, .fetchKeyCall, .encryptCall archivePath,
                .uploadCall encryptedFilePath],
               .error (.uploadFailed e))
            | .ok key =>
              ([.archiveCall, .fetchKeyCall, .encryptCall archivePath,
                .uploadCall encryptedFilePath],
               .ok { TotalDatabases := resp.totalDatabases
                     ExportedDatabases := resp.exportedDatabases
                     DumpLocation := resp.exportLocation
                     ArchiveLocation := archivePath
                     StorageKey := key })
      else
        match env.upload archivePath with
        | .error e =>
          ([.archiveCall, .uploadCall archivePath], .error (.uploadFailed e))
        | .ok key =>
          ([.archiveCall, .uploadCall archivePath],
           .ok { TotalDatabases := resp.totalDatabases
                 ExportedDatabases := resp.exportedDatabases
                 DumpLocation := resp.exportLocation
                 ArchiveLocation := archivePath
                 StorageKey := key })

/-- `Dumpster.CreateDump`: pre-checks, export stage, then `afterExport`.
The first component is the trace of post-export collaborator calls. -/
def CreateDump (env : Env) : List Event × Except DumpErr DumpResponse :=
  match env.preChecks with
  | .error e => ([], .error (.preCheck e))
  | .ok _ =>
    match exportStage env with
    | .error e => ([], .error e)
    | .ok resp => afterExport env resp

/-- `Dumpster.ListDumps`: list keys, short-circuit on empty storage, else
strip the instance prefix and sort by embedded timestamp. -/
def ListDumps (env : Env) : Except DumpErr (List String) :=
  match env.list with
  | .error e => .error (.listFailed e)
  | .ok keys =>
    if keys.length = 0 then .ok []
    else .ok (env.sortDateTimes (env.trimPfx keys))

/-- Go slice expression `xs[low:]`: `none` models the runtime panic
"slice bounds out of range" raised when `low < 0` or `low > len(xs)`. -/
def goSliceFrom (xs : List String) (low : Int) : Option (List String) :=
  if 0 ≤ low ∧ low ≤ (xs.length : Int) then some (xs.drop low.toNat)
  else none

/-- The deletion loop of `Dumpster.PurgeDumps`: delete keys in sequence
order, aborting on the first failure with an error naming the key.
The first component is the ordered list of keys passed to `Delete`
(the failing key included). -/
def deleteLoop (delete : String → Except String Unit) :
    List String → List String × Except DumpErr Unit
  | [] => ([], .ok ())
  | k :: ks =>
    match delete k with
    | .error e => ([k], .error (.deleteFailed k e))
    | .ok _ =>
      let (calls, r) := deleteLoop delete ks
      (k :: calls, r)

/-- `Dumpster.PurgeDumps`: list-and-sort, keep the first `RetentionCount`
keys, delete the rest in order.  `none` models the Go panic of the slice
`keys[RetentionCount:]`. -/
def PurgeDumps (env : Env) : Option (List String × Except DumpErr Unit) :=
  match ListDumps env with
  | .error e => some ([], .error e)
  | .ok keys =>
    if (keys.length : Int) ≤ env.retentionCount then some ([], .ok ())
    else
      match goSliceFrom keys env.retentionCount with
      | none => none
      | some keysToDelete => some (deleteLoop env.delete keysToDelete)

/-- `Dumpster.Dump`: `CreateDump`, then `PurgeDumps`; a purge failure
discards the dump response from the return value.  `none` propagates a
purge panic. -/
def Dump (env : Env) : Option (Except DumpErr DumpResponse) :=
  match (CreateDump env).2 with
  | .error e => some (.error e)
  | .ok resp =>
    match PurgeDumps env with
    | none => none
    | some (_, .error e) => some (.error e)
    | some (_, .ok _) => some (.ok resp)

/-- The spec-side characterisation of the enumerator's surviving lines:
the non-empty whitespace-trimmed lines of the output, in server order. -/
def trimmedNonEmptyLines (output : String) : List String :=
  (((splitNl output.toList).map trimWs).filter (fun l => ¬ l = [])).map String.mk

/-- Following the spec's words for claim comparison: order-preserving
deduplication (first occurrence kept) of a name sequence. -/
def dedupSpec : List String → List String
  | [] => []
  | x :: xs => x :: (dedupSpec xs).filter (fun y => ¬ y = x)

/-! ### Concrete runs used as witnesses and counterexamples -/

/-- A fully successful run: one database, no encryption, three stored
backups `t3, t2, t1` (most-recent first), retention 2. -/
def envBase : Env :=
  { preChecks := .ok ()
    psqlOutput := .ok "db1\n"
    pgDump := fun _ _ => .ok ()
    archive := .ok "/tmp/a.tar.gz"
    encrypt := false
    fetchKey := .ok ()
    encryptFile := fun p => .ok (p ++ ".gpg")
    upload := fun _ => .ok "ts1/a.tar.gz"
    backupLocation := "/tmp/export"
    list := .ok ["t3", "t2", "t1"]
    trimPfx := id
    sortDateTimes := id
    delete := fun _ => .ok ()
    retentionCount := 2 }

/-- A run whose enumeration returns no databases. -/
def envZeroDbs : Env := { envBase with psqlOutput := .ok "" }

/-- A run whose enumeration output repeats the same database name. -/
def envDupLines : Env := { envBase with psqlOutput := .ok "db1\ndb1" }

/-- A run in which the cancellation signal becomes set after the first
per-database export: every `pg_dump` invocation from loop index 1 onward
fails with the context-cancellation error. -/
def envCancelMid : Env :=
  { envBase with
    psqlOutput := .ok "db1\ndb2"
    pgDump := fun i _ => if i = 0 then .ok () else .error "context canceled" }

/-- A purge run with retention 1 in which deleting the oldest surplus key
`t1` fails after the surplus key `t2` was deleted. -/
def envDeleteFail : Env :=
  { envBase with
    retentionCount := 1
    delete := fun k => if k = "t1" then .error "boom" else .ok () }

/-- A run whose purge fails on its first deletion (retention 0). -/
def envPurgeFail : Env :=
  { envBase with retentionCount := 0, delete := fun _ => .error "dfail" }

/-- A successful encrypted run. -/
def envEncrypt : Env := { envBase with encrypt := true }

/-- An encrypted run whose key fetch fails. -/
def envKeyFail : Env :=
  { envBase with encrypt := true, fetchKey := .error "nokey" }

/-- A run with a negative configured retention count. -/
def envNegRetention : Env := { envBase with retentionCount := -1 }

/-! ### Helper lemmas -/

theorem enumLoop_eq (lines : List (List Char)) :
    enumLoop lines =
      (((lines.map trimWs).filter (fun l => ¬ l = [])).map String.mk,
       ((lines.map trimWs).filter (fun l => ¬ l = [])).length) := by
  induction lines with
  | nil => rfl
  | cons line rest ih =>
    by_cases h : trimWs line = []
    · simp [enumLoop, h, List.filter, ih]
    · simp [enumLoop, h, List.filter, ih]

theorem enumLoop_snd_eq_length (lines : List (List Char)) :
    (enumLoop lines).2 = (enumLoop lines).1.length := by
  rw [enumLoop_eq]
  simp

theorem exportLoop_le (pgDump : Nat → String → Except String Unit)
    (i : Nat) (dbs : List String) :
    exportLoop pgDump i dbs ≤ dbs.length := by
  induction dbs generalizing i with
  | nil => simp [exportLoop]
  | cons db rest ih =>
    have h1 := ih (i + 1)
    cases h : pgDump i db <;> simp [exportLoop, h, List.length_cons] <;> omega

theorem deleteLoop_all_ok (delete : String → Except String Unit)
    (ks : List String) (h : ∀ k ∈ ks, delete k = .ok ()) :
    deleteLoop delete ks = (ks, .ok ()) := by
  induction ks with
  | nil => rfl
  | cons k rest ih =>
    have hk : delete k = .ok () := h k (List.mem_cons_self k rest)
    have hrest := ih (fun x hx => h x (List.mem_cons_of_mem k hx))
    simp [deleteLoop, hk, hrest]

theorem deleteLoop_first_failure (delete : String → Except String Unit)
    (pre : List String) (k : String) (post : List String) (e : String)
    (hpre : ∀ x ∈ pre, delete x = .ok ()) (hk : delete k = .error e) :
    deleteLoop delete (pre ++ k :: post) =
      (pre ++ [k], .error (.deleteFailed k e)) := by
  induction pre with
  | nil => simp [deleteLoop, hk]
  | cons p rest ih =>
    have hp : delete p = .ok () := hpre p (List.mem_cons_self p rest)
    have hrest := ih (fun x hx => hpre x (List.mem_cons_of_mem p hx))
    simp [deleteLoop, hp, hrest]

theorem afterExport_ok_inv {env : Env} {r : exportResponse}
    {resp : DumpResponse} (h : (afterExport env r).2 = .ok resp) :
    resp.TotalDatabases = r.totalDatabases ∧
    resp.ExportedDatabases = r.exportedDatabases ∧
    0 < r.exportedDatabases := by
  unfold afterExport at h
  split at h
  · simp at h
  · next hz =>
    refine ?_
    have hp : 0 < r.exportedDatabases := by omega
    split at h
    · simp at h
    · split at h
      · split at h
        · simp at h
        · split at h
          · simp at h
          · split at h
            · simp at h
            · simp at h
              exact ⟨by simp [← h], by simp [← h], hp⟩
      · split at h
        · simp at h
        · simp at h
          exact ⟨by simp [← h], by simp [← h], hp⟩

theorem afterExport_zero {env : Env} {r : exportResponse}
    (h : r.exportedDatabases = 0) :
    afterExport env r = ([], .error .zeroExport) := by
  unfold afterExport
  simp [h]

theorem afterExport_zero_iff {env : Env} {r : exportResponse} :
    (afterExport env r).2 = .error .zeroExport ↔ r.exportedDatabases = 0 := by
  constructor
  · intro h
    by_contra hne
    unfold afterExport at h
    split at h
    · omega
    · split at h
      · simp at h
      · split at h
        · split at h
          · simp at h
          · split at h
            · simp at h
            · split at h <;> simp at h
        · split at h <;> simp at h
  · intro h
    rw [afterExport_zero h]

theorem exportStage_error_inv {env : Env} {e : DumpErr}
    (h : exportStage env = .error e) :
    ∃ msg, env.psqlOutput = .error msg ∧ e = .enumFailed msg := by
  unfold exportStage at h
  cases hout : env.psqlOutput with
  | error msg =>
    rw [hout] at h
    injection h with h2
    exact ⟨msg, rfl, h2.symm⟩
  | ok output =>
    exfalso
    rw [hout] at h
    simp at h

theorem exportStage_ok_counts {env : Env} {r : exportResponse}
    (h : exportStage env = .ok r) :
    r.exportedDatabases ≤ r.totalDatabases := by
  unfold exportStage at h
  cases hout : env.psqlOutput with
  | error msg => rw [hout] at h; simp at h
  | ok output =>
    rw [hout] at h
    simp at h
    subst h
    simp only [exportResponse.mk.injEq]
    rw [enumLoop_snd_eq_length]
    exact exportLoop_le env.pgDump 0 _

theorem createDump_ok_inv {env : Env} {resp : DumpResponse}
    (h : (CreateDump env).2 = .ok resp) :
    ∃ r, exportStage env = .ok r ∧
      resp.TotalDatabases = r.totalDatabases ∧
      resp.ExportedDatabases = r.exportedDatabases ∧
      0 < r.exportedDatabases := by
  unfold CreateDump at h
  cases hpc : env.preChecks with
  | error e => rw [hpc] at h; simp at h
  | ok u =>
    rw [hpc] at h
    cases hex : exportStage env with
    | error e => rw [hex] at h; simp at h
    | ok r =>
      rw [hex] at h
      exact ⟨r, rfl, afterExport_ok_inv h⟩

theorem dump_ok_inv {env : Env} {resp : DumpResponse}
    (h : Dump env = some (.ok resp)) :
    (CreateDump env).2 = .ok resp := by
  unfold Dump at h
  cases hcd : (CreateDump env).2 with
  | error e => rw [hcd] at h; simp at h
  | ok resp2 =>
    rw [hcd] at h
    cases hp : PurgeDumps env with
    | none => rw [hp] at h; simp at h
    | some pr =>
      rcases pr with ⟨tr, res⟩
      rw [hp] at h
      cases res with
      | error e => simp at h
      | ok u => simp at h; rw [h]

/-! ### Claim theorems -/

/-- C1: `CreateDump` fails with the zero-export error exactly when
pre-checks passed and the export stage completed with
`exportedDatabases = 0`; in that case no collaborator call (archive,
encryption or upload) is issued, and whenever the export stage completes
with `exportedDatabases > 0` the zero-export error is never returned. -/
theorem createDump_zero_export_iff (env : Env) :
    ((CreateDump env).2 = .error .zeroExport ↔
      (env.preChecks = .ok () ∧
       ∃ r, exportStage env = .ok r ∧ r.exportedDatabases = 0)) ∧
    ((CreateDump env).2 = .error .zeroExport → (CreateDump env).1 = []) ∧
    (∀ r, exportStage env = .ok r → 0 < r.exportedDatabases →
      ¬ (CreateDump env).2 = .error .zeroExport) := by
  cases hpc : env.preChecks with
  | error e =>
    have hcd : CreateDump env = ([], .error (.preCheck e)) := by
      simp [CreateDump, hpc]
    refine ⟨⟨fun h => ?_, fun h => ?_⟩, fun h => ?_, fun r hr hpos h => ?_⟩
    · rw [hcd] at h
      simp at h
    · simp at h
    · rw [hcd] at h
      simp at h
    · rw [hcd] at h
      simp at h
  | ok u =>
    cases u
    cases hex : exportStage env with
    | error e =>
      obtain ⟨msg, hmsg, he⟩ := exportStage_error_inv hex
      have hcd : CreateDump env = ([], .error e) := by
        simp [CreateDump, hpc, hex]
      refine ⟨⟨fun h => ?_, fun h => ?_⟩, fun h => ?_, fun r hr hpos h => ?_⟩
      · rw [hcd] at h
        simp [he] at h
      · obtain ⟨-, r, hr, -⟩ := h
        simp at hr
      · simp [hcd]
      · simp at hr
    | ok r =>
      have hcd : CreateDump env = afterExport env r := by
        simp [CreateDump, hpc, hex]
      refine ⟨⟨fun h => ?_, fun h => ?_⟩, fun h => ?_, fun r2 hr2 hpos h => ?_⟩
      · rw [hcd] at h
        exact ⟨rfl, r, rfl, afterExport_zero_iff.mp h⟩
      · obtain ⟨-, r2, hr2, hz⟩ := h
        have hrr : r = r2 := by simpa using hr2
        subst hrr
        rw [hcd]
        exact afterExport_zero_iff.mpr hz
      · rw [hcd] at h ⊢
        have hz : r.exportedDatabases = 0 := afterExport_zero_iff.mp h
        rw [afterExport_zero hz]
      · have hrr : r = r2 := by simpa using hr2
        subst hrr
        rw [hcd] at h
        have hz := afterExport_zero_iff.mp h
        omega

/-- C1 witness: a run whose enumeration yields no databases triggers the
zero-export error with an empty collaborator-call trace. -/
theorem createDump_zero_export_iff_witness :
    (CreateDump envZeroDbs).1 = [] :=
  (createDump_zero_export_iff envZeroDbs).2.1 rfl

/-- C9: every export-stage result satisfies
`0 ≤ exportedDatabases ≤ totalDatabases`, and every `DumpResponse`
returned by `CreateDump` or `Dump` carries counts satisfying the same
inequality. -/
theorem export_counts_invariant (env : Env) :
    (∀ r, exportStage env = .ok r →
      0 ≤ r.exportedDatabases ∧ r.exportedDatabases ≤ r.totalDatabases) ∧
    (∀ resp, (CreateDump env).2 = .ok resp →
      0 ≤ resp.ExportedDatabases ∧
      resp.ExportedDatabases ≤ resp.TotalDatabases) ∧
    (∀ resp, Dump env = some (.ok resp) →
      0 ≤ resp.ExportedDatabases ∧
      resp.ExportedDatabases ≤ resp.TotalDatabases) := by
  refine ⟨fun r hr => ⟨Nat.zero_le _, exportStage_ok_counts hr⟩,
    fun resp hresp => ?_, fun resp hresp => ?_⟩
  · obtain ⟨r, hex, ht, he, -⟩ := createDump_ok_inv hresp
    exact ⟨Nat.zero_le _, by rw [ht, he]; exact exportStage_ok_counts hex⟩
  · obtain ⟨r, hex, ht, he, -⟩ := createDump_ok_inv (dump_ok_inv hresp)
    exact ⟨Nat.zero_le _, by rw [ht, he]; exact exportStage_ok_counts hex⟩

/-- C9 witness: the invariant holds for the `DumpResponse` of the base
run. -/
theorem export_counts_invariant_witness :
    0 ≤ (DumpResponse.mk 1 1 "/tmp/export" "/tmp/a.tar.gz"
          "ts1/a.tar.gz").ExportedDatabases ∧
    (DumpResponse.mk 1 1 "/tmp/export" "/tmp/a.tar.gz"
          "ts1/a.tar.gz").ExportedDatabases ≤
      (DumpResponse.mk 1 1 "/tmp/export" "/tmp/a.tar.gz"
          "ts1/a.tar.gz").TotalDatabases :=
  (export_counts_invariant envBase).2.1 _ rfl

/-- C4 counterexample: on enumeration output `"db1\ndb1"` the export
stage keeps both copies — the parsed database sequence is not
deduplicated and `totalDatabases` is 2, not the deduplicated count 1. -/
theorem export_dedup_counterexample :
    exportStage envDupLines = .ok ⟨2, 2, "/tmp/export"⟩ ∧
    trimmedNonEmptyLines "db1\ndb1" = ["db1", "db1"] ∧
    dedupSpec (trimmedNonEmptyLines "db1\ndb1") = ["db1"] ∧
    ¬ (2 = (dedupSpec (trimmedNonEmptyLines "db1\ndb1")).length) :=
  ⟨rfl, rfl, rfl, by decide⟩

/-- C4 (amended): for every enumeration output, the database sequence
produced by export is the sequence of non-empty whitespace-trimmed lines
in server order, duplicates preserved, and `totalDatabases` is the count
of those surviving lines. -/
theorem export_parses_trimmed_lines (env : Env) (output : String)
    (h : env.psqlOutput = .ok output) :
    exportStage env = .ok
      { totalDatabases := (trimmedNonEmptyLines output).length
        exportedDatabases := exportLoop env.pgDump 0 (trimmedNonEmptyLines output)
        exportLocation := env.backupLocation } := by
  simp only [exportStage, h]
  have he := enumLoop_eq (splitNl output.toList)
  rw [he]
  simp [trimmedNonEmptyLines]

/-- C4 witness: the amended claim at the duplicate-line output. -/
theorem export_parses_trimmed_lines_witness :
    exportStage envDupLines = .ok
      { totalDatabases := (trimmedNonEmptyLines "db1\ndb1").length
        exportedDatabases :=
          exportLoop envDupLines.pgDump 0 (trimmedNonEmptyLines "db1\ndb1")
        exportLocation := envDupLines.backupLocation } :=
  export_parses_trimmed_lines envDupLines "db1\ndb1" rfl

/-- C6 counterexample: in a run whose cancellation signal becomes set
after the first per-database export (so every `pg_dump` invocation from
loop index 1 onward fails with the context-cancellation error), `export`
completes without any error, carrying the partial count 1 of 2, and
`CreateDump` succeeds on the partial result — no cancellation error is
propagated. -/
theorem export_cancellation_counterexample :
    exportStage envCancelMid = .ok ⟨2, 1, "/tmp/export"⟩ ∧
    (CreateDump envCancelMid).2 =
      .ok ⟨2, 1, "/tmp/export", "/tmp/a.tar.gz", "ts1/a.tar.gz"⟩ :=
  ⟨rfl, rfl⟩

/-- C6 (amended): the per-database export loop performs no cancellation
check between attempts: a dump invocation that fails (a
cancellation-induced failure included) is skipped like any per-item
failure, and once enumeration has succeeded `export` never returns an
error, whatever the per-database outcomes. -/
theorem export_no_cancellation_abort (env : Env) (output : String)
    (h : env.psqlOutput = .ok output) :
    ∀ e, ¬ exportStage env = .error e := by
  intro e he
  obtain ⟨msg, hmsg, -⟩ := exportStage_error_inv he
  rw [h] at hmsg
  simp at hmsg

/-- C6 amended-claim witness: the mid-loop-cancelled run's export does
not fail. -/
theorem export_no_cancellation_abort_witness :
    ¬ exportStage envCancelMid = .error (.enumFailed "context canceled") :=
  export_no_cancellation_abort envCancelMid "db1\ndb2" rfl _

/-- C2: with a non-negative retention count `R` and all deletions
succeeding, `PurgeDumps` deletes exactly the `max(0, N − R)` keys beyond
index `R` of the most-recent-first sequence and succeeds; the retained
prefix is exactly the `min(N, R)` most-recent keys; for `N ≤ R` the
deleted list is empty. -/
theorem purgeDumps_retention (env : Env) (ks : List String)
    (hR : 0 ≤ env.retentionCount)
    (hls : ListDumps env = .ok ks)
    (hdel : ∀ k, env.delete k = .ok ()) :
    PurgeDumps env = some (ks.drop env.retentionCount.toNat, .ok ()) ∧
    ((ks.drop env.retentionCount.toNat).length : Int) =
      max 0 ((ks.length : Int) - env.retentionCount) ∧
    ks.take env.retentionCount.toNat ++ ks.drop env.retentionCount.toNat = ks ∧
    ((ks.take env.retentionCount.toNat).length : Int) =
      min (ks.length : Int) env.retentionCount := by
  refine ⟨?_, ?_, List.take_append_drop _ _, ?_⟩
  · simp only [PurgeDumps, hls]
    by_cases hg : (ks.length : Int) ≤ env.retentionCount
    · rw [if_pos hg]
      have hnil : ks.drop env.retentionCount.toNat = [] :=
        List.drop_eq_nil_of_le (by omega)
      rw [hnil]
    · rw [if_neg hg]
      unfold goSliceFrom
      rw [if_pos ⟨hR, by omega⟩]
      show some (deleteLoop env.delete (ks.drop env.retentionCount.toNat)) = _
      rw [deleteLoop_all_ok env.delete _ (fun k _ => hdel k)]
  · simp only [List.length_drop]
    omega
  · simp only [List.length_take]
    omega

/-- C2 witness: three stored keys, retention 2, all deletions succeed:
exactly the oldest key is deleted. -/
theorem purgeDumps_retention_witness :
    PurgeDumps envBase = some (["t1"], .ok ()) :=
  (purgeDumps_retention envBase ["t3", "t2", "t1"] (by decide) rfl
    (fun _ => rfl)).1

/-- C3: surplus keys are deleted sequentially in sequence order; on the
first deletion failure `PurgeDumps` aborts with an error naming the
offending key: the keys passed to `Delete` are exactly the successfully
deleted prefix followed by the failing key, and no later surplus key is
ever passed to `Delete`. -/
theorem purgeDumps_first_failure (env : Env) (ks pre post : List String)
    (k e : String)
    (hR : 0 ≤ env.retentionCount)
    (hls : ListDumps env = .ok ks)
    (hsurplus : ks.drop env.retentionCount.toNat = pre ++ k :: post)
    (hpre : ∀ x ∈ pre, env.delete x = .ok ())
    (hk : env.delete k = .error e) :
    PurgeDumps env = some (pre ++ [k], .error (.deleteFailed k e)) := by
  have hlt : ¬ (ks.length : Int) ≤ env.retentionCount := by
    intro hle
    have hnil : ks.drop env.retentionCount.toNat = [] :=
      List.drop_eq_nil_of_le (by omega)
    rw [hnil] at hsurplus
    simp at hsurplus
  simp only [PurgeDumps, hls]
  rw [if_neg hlt]
  unfold goSliceFrom
  rw [if_pos ⟨hR, by omega⟩]
  rw [hsurplus]
  show some (deleteLoop env.delete (pre ++ k :: post)) = _
  rw [deleteLoop_first_failure env.delete pre k post e hpre hk]

/-- C3 witness: retention 1 over `t3, t2, t1`; `t2` deletes fine, `t1`
fails: the error names `t1`, `t2` stays deleted, nothing follows. -/
theorem purgeDumps_first_failure_witness :
    PurgeDumps envDeleteFail =
      some (["t2", "t1"], .error (.deleteFailed "t1" "boom")) :=
  purgeDumps_first_failure envDeleteFail ["t3", "t2", "t1"] ["t2"] []
    "t1" "boom" (by decide) rfl rfl (by decide) rfl

/-- C5: `ListDumps` maps a non-empty stored key list to the
prefix-stripped keys ordered by the timestamp sorter (most-recent
first); empty storage yields an empty sequence and no error; an error is
returned only when the storage `List` call itself failed. -/
theorem listDumps_spec (env : Env) :
    (∀ keys, env.list = .ok keys → keys ≠ [] →
      ListDumps env = .ok (env.sortDateTimes (env.trimPfx keys))) ∧
    (env.list = .ok [] → ListDumps env = .ok []) ∧
    (∀ e, ListDumps env = .error e →
      ∃ msg, env.list = .error msg ∧ e = .listFailed msg) := by
  refine ⟨fun keys hk hne => ?_, fun hk => ?_, fun e he => ?_⟩
  · simp only [ListDumps, hk]
    rw [if_neg (fun h0 => hne (List.length_eq_zero.mp h0))]
  · simp only [ListDumps, hk]
    simp
  · cases hl : env.list with
    | error msg =>
      have hld : ListDumps env = .error (.listFailed msg) := by
        simp only [ListDumps, hl]
      rw [hld] at he
      injection he with h2
      exact ⟨msg, rfl, h2.symm⟩
    | ok keys =>
      exfalso
      by_cases h0 : keys.length = 0
      · have hld : ListDumps env = .ok [] := by
          simp only [ListDumps, hl]
          rw [if_pos h0]
        rw [hld] at he
        simp at he
      · have hld : ListDumps env = .ok (env.sortDateTimes (env.trimPfx keys)) := by
          simp only [ListDumps, hl]
          rw [if_neg h0]
        rw [hld] at he
        simp at he

/-- C5 witness: the base run's three stored keys are listed in
most-recent-first order. -/
theorem listDumps_spec_witness :
    ListDumps envBase = .ok ["t3", "t2", "t1"] :=
  (listDumps_spec envBase).1 ["t3", "t2", "t1"] rfl (by decide)

/-- C7: once `CreateDump` has succeeded, a failing `PurgeDumps` makes
`Dump` return the purge error with the already-created dump response
discarded, while a succeeding `PurgeDumps` makes `Dump` return the
`CreateDump` response unchanged. -/
theorem dump_purge_failure (env : Env) (resp : DumpResponse)
    (hcd : (CreateDump env).2 = .ok resp) :
    (∀ tr e, PurgeDumps env = some (tr, .error e) →
      Dump env = some (.error e)) ∧
    (∀ tr, PurgeDumps env = some (tr, .ok ()) →
      Dump env = some (.ok resp)) := by
  constructor
  · intro tr e hp
    unfold Dump
    rw [hcd, hp]
  · intro tr hp
    unfold Dump
    rw [hcd, hp]

/-- C7 witness: a run whose backup succeeds but whose first purge
deletion fails: `Dump` reports the delete error and drops the dump
response. -/
theorem dump_purge_failure_witness :
    Dump envPurgeFail = some (.error (.deleteFailed "t3" "dfail")) :=
  (dump_purge_failure envPurgeFail
    ⟨1, 1, "/tmp/export", "/tmp/a.tar.gz", "ts1/a.tar.gz"⟩ rfl).1
    ["t3"] _ rfl

/-- C8: with encryption configured, a key-fetch or encryption failure
aborts `CreateDump` with that error before any `Upload` call, and when
both succeed the only path passed to `Upload` is the encrypted file
path — in particular never the unencrypted archive path when the two
differ. -/
theorem encrypted_upload_path (env : Env) (r : exportResponse)
    (archivePath : String)
    (henc : env.encrypt = true)
    (hpc : env.preChecks = .ok ())
    (hex : exportStage env = .ok r)
    (hpos : 0 < r.exportedDatabases)
    (harch : env.archive = .ok archivePath) :
    (∀ e, env.fetchKey = .error e →
      (CreateDump env).2 = .error (.gpgKeyFailed e) ∧
      uploadPaths (CreateDump env).1 = []) ∧
    (∀ e, env.fetchKey = .ok () → env.encryptFile archivePath = .error e →
      (CreateDump env).2 = .error (.encryptFailed e) ∧
      uploadPaths (CreateDump env).1 = []) ∧
    (∀ enc, env.fetchKey = .ok () → env.encryptFile archivePath = .ok enc →
      uploadPaths (CreateDump env).1 = [enc] ∧
      (enc ≠ archivePath → archivePath ∉ uploadPaths (CreateDump env).1)) := by
  have hcd : CreateDump env = afterExport env r := by
    simp [CreateDump, hpc, hex]
  have hz : ¬ r.exportedDatabases ≤ 0 := by omega
  refine ⟨fun e hfk => ?_, fun e hfk hef => ?_, fun enc hfk hef => ?_⟩
  · rw [hcd]
    simp [afterExport, hz, harch, henc, hfk, uploadPaths]
  · rw [hcd]
    simp [afterExport, hz, harch, henc, hfk, hef, uploadPaths]
  · have hupl : uploadPaths (CreateDump env).1 = [enc] := by
      rw [hcd]
      cases hup : env.upload enc <;>
        simp [afterExport, hz, harch, henc, hfk, hef, hup, uploadPaths]
    refine ⟨hupl, fun hne hmem => ?_⟩
    rw [hupl] at hmem
    simp at hmem
    exact hne hmem.symm

/-- C8 witness: the successful encrypted run uploads exactly the
encrypted path. -/
theorem encrypted_upload_path_witness :
    uploadPaths (CreateDump envEncrypt).1 = ["/tmp/a.tar.gz.gpg"] :=
  ((encrypted_upload_path envEncrypt ⟨1, 1, "/tmp/export"⟩ "/tmp/a.tar.gz"
    rfl rfl rfl (by decide) rfl).2.2 "/tmp/a.tar.gz.gpg" rfl rfl).1

/-- C10: `PurgeDumps` never reaches an out-of-range slice when the
configured retention count is non-negative, while a negative retention
count with a non-empty key list slips past the `len(keys) <= R` guard
into the out-of-range slice `keys[R:]` (a Go runtime panic, modelled as
`none`). -/
theorem purgeDumps_slice_safety :
    (∀ env : Env, 0 ≤ env.retentionCount → (PurgeDumps env).isSome = true) ∧
    PurgeDumps envNegRetention = none := by
  constructor
  · intro env hR
    cases hls : ListDumps env with
    | error e => simp [PurgeDumps, hls]
    | ok keys =>
      by_cases hg : (keys.length : Int) ≤ env.retentionCount
      · simp [PurgeDumps, hls, hg]
      · simp only [PurgeDumps, hls]
        rw [if_neg hg]
        unfold goSliceFrom
        rw [if_pos ⟨hR, by omega⟩]
        rfl
  · rfl

/-- C10 witness: the base run (retention 2) cannot panic. -/
theorem purgeDumps_slice_safety_witness :
    (PurgeDumps envBase).isSome = true :=
  purgeDumps_slice_safety.1 envBase (by decide)
